import Mathlib

/-!
Shallow embedding of the retirement-planning engine in `src/src/App.tsx`
(Fukawara/plan-ounjai-demo).  Numbers are modelled as rationals, ages and
calendar years as integers, year counts as naturals.  Each definition follows
the corresponding TypeScript function or inline expression.
-/

namespace Plan

/-- TS `annuityCorpus(annualNeedAtRetire, rAfter, years)` from App.tsx:
present value of a level annual payment stream over `years` periods. -/
def annuityCorpus (annualNeedAtRetire : ℚ) (rAfter : ℚ) (years : ℕ) : ℚ :=
  if years ≤ 0 then 0
  else if rAfter = 0 then annualNeedAtRetire * years
  else annualNeedAtRetire * ((1 - (1 + rAfter) ^ (-(years : ℤ))) / rAfter)

/-- TS `fv(pv, r, n)` from App.tsx: compound future value. -/
def fv (pv : ℚ) (r : ℚ) (n : ℕ) : ℚ := pv * (1 + r) ^ n

/-- TS `fvSeries(pmtPerYear, r, n)` from App.tsx: future value of a level
payment stream. -/
def fvSeries (pmtPerYear : ℚ) (r : ℚ) (n : ℕ) : ℚ :=
  if n ≤ 0 then 0
  else if r = 0 then pmtPerYear * n
  else pmtPerYear * (((1 + r) ^ n - 1) / r)

/-- TS `requiredSavingsPerYear(targetFV, currentAssets, r, years)` from App.tsx:
level annual contribution closing the clamped gap between the future value of
current assets and the target. -/
def requiredSavingsPerYear (targetFV currentAssets : ℚ) (r : ℚ) (years : ℕ) : ℚ :=
  let fvAssets := fv currentAssets r years
  let need := max (targetFV - fvAssets) 0
  if need = 0 then 0
  else if r = 0 then need / years
  else (need * r) / ((1 + r) ^ years - 1)

/-- TS `pmtMonthly(principal, rateYear, years)` from App.tsx: fixed monthly
payment of a fully amortizing loan. -/
def pmtMonthly (principal rateYear : ℚ) (years : ℕ) : ℚ :=
  let r := rateYear / 12
  let n := years * 12
  if r = 0 then principal / n
  else (principal * r) / (1 - (1 + r) ^ (-(n : ℤ)))

/-- TS `childrenCountGuess(monthlyExpense)` from App.tsx. -/
def childrenCountGuess (monthlyExpense : ℚ) : Bool := monthlyExpense > 40000

/-- TS `educationReserveGuess(monthlyExpense)` from App.tsx. -/
def educationReserveGuess (monthlyExpense : ℚ) : ℚ :=
  if childrenCountGuess monthlyExpense then 1000000 else 0

/-- TS `clamp(n, lo, hi)` from App.tsx. -/
def clamp (n lo hi : ℚ) : ℚ := max lo (min hi n)

/-- A goal record (`type Goal` in App.tsx). -/
structure Goal where
  id : String
  name : String
  target : ℚ
  year : ℤ
  priority : ℤ
deriving DecidableEq

/-- The full parameter set the App component reads (its `useState` values),
plus `currentYear`, which models `new Date().getFullYear()`. -/
structure Inputs where
  age : ℤ
  retireAge : ℤ
  lifeExpectancy : ℤ
  inflation : ℚ
  returnBefore : ℚ
  returnAfter : ℚ
  incomeMain : ℚ
  incomeSide : ℚ
  expBasic : ℚ
  expHealth : ℚ
  expLifestyle : ℚ
  currentAssets : ℚ
  currentDebt : ℚ
  currentSavingPerMonth : ℚ
  pvdRate : ℚ
  mortgagePrincipal : ℚ
  mortgageRate : ℚ
  mortgageYears : ℕ
  carPrincipal : ℚ
  carRate : ℚ
  carYears : ℕ
  goals : List Goal
  lifeCoverHave : ℚ
  ciCoverHave : ℚ
  bearShock : ℚ
  stdevBefore : ℚ
  stdevAfter : ℚ
  runs : ℕ
  currentYear : ℤ

/-- TS `incomeYear = (incomeMain + incomeSide) * 12`. -/
def incomeYear (P : Inputs) : ℚ := (P.incomeMain + P.incomeSide) * 12

/-- TS `monthlyExpense = expBasic + expHealth + expLifestyle`. -/
def monthlyExpense (P : Inputs) : ℚ := P.expBasic + P.expHealth + P.expLifestyle

/-- TS `yearsToRetire = Math.max(retireAge - age, 0)`. -/
def yearsToRetire (P : Inputs) : ℕ := (max (P.retireAge - P.age) 0).toNat

/-- TS `yearsInRetirement = Math.max(lifeExpectancy - retireAge, 0)`. -/
def yearsInRetirement (P : Inputs) : ℕ := (max (P.lifeExpectancy - P.retireAge) 0).toNat

/-- TS `annualExpenseToday = monthlyExpense * 12`. -/
def annualExpenseToday (P : Inputs) : ℚ := monthlyExpense P * 12

/-- TS `annualExpenseAtRetire = annualExpenseToday * (1+inflation)^yearsToRetire`. -/
def annualExpenseAtRetire (P : Inputs) : ℚ :=
  annualExpenseToday P * (1 + P.inflation) ^ yearsToRetire P

/-- TS `targetCorpus = annuityCorpus(annualExpenseAtRetire, returnAfter, yearsInRetirement)`. -/
def targetCorpus (P : Inputs) : ℚ :=
  annuityCorpus (annualExpenseAtRetire P) P.returnAfter (yearsInRetirement P)

/-- TS `Math.max(currentAssets - currentDebt, 0)`: net current assets,
as used in `projectedFVAtRetire`, the call site of `requiredSavingsPerYear`,
`lifeNeed`, the Monte Carlo loop and the chart loop. -/
def netAssets (P : Inputs) : ℚ := max (P.currentAssets - P.currentDebt) 0

/-- TS `yearlySaving = currentSavingPerMonth * 12 + incomeYear * pvdRate`
(inside `projectedFVAtRetire`). -/
def yearlySavingProj (P : Inputs) : ℚ :=
  P.currentSavingPerMonth * 12 + incomeYear P * P.pvdRate

/-- TS `(currentSavingPerMonth + incomeYear * pvdRate / 12) * 12`: the annual
savings term used by each accumulation step of the chart loop and the
Monte Carlo loop. -/
def yearlySavingTraj (P : Inputs) : ℚ :=
  (P.currentSavingPerMonth + incomeYear P * P.pvdRate / 12) * 12

/-- TS `spendGoals`: inflation-adjusted cost of goals no later than
`currentYear + yearsToRetire` (inside `projectedFVAtRetire`). -/
def spendGoals (P : Inputs) : ℚ :=
  ((P.goals.filter fun g => g.year ≤ P.currentYear + (yearsToRetire P : ℤ)).map
    fun g => g.target * (1 + P.inflation) ^ (g.year - P.currentYear)).sum

/-- TS `projectedFVAtRetire` from App.tsx. -/
def projectedFVAtRetire (P : Inputs) : ℚ :=
  let fromAssets := fv (netAssets P) P.returnBefore (yearsToRetire P)
  let fromFutureSavings := fvSeries (yearlySavingProj P) P.returnBefore (yearsToRetire P)
  max (fromAssets + fromFutureSavings - spendGoals P) 0

/-- TS `requiredSavingPerYear` from App.tsx. -/
def requiredSavingPerYear (P : Inputs) : ℚ :=
  requiredSavingsPerYear (targetCorpus P) (netAssets P) P.returnBefore (yearsToRetire P)

/-- TS `requiredSavingPerMonth = requiredSavingPerYear / 12`. -/
def requiredSavingPerMonth (P : Inputs) : ℚ := requiredSavingPerYear P / 12

/-- TS `readiness = targetCorpus > 0 ? projectedFVAtRetire / targetCorpus : 0`. -/
def readiness (P : Inputs) : ℚ :=
  if targetCorpus P > 0 then projectedFVAtRetire P / targetCorpus P else 0

/-- TS `yearsToProtect = clamp(childrenCountGuess(monthlyExpense) ? 20 : 10, 5, 25)`. -/
def yearsToProtect (P : Inputs) : ℚ :=
  clamp (if childrenCountGuess (monthlyExpense P) then 20 else 10) 5 25

/-- TS `lifeNeed` from App.tsx: recommended life cover. -/
def lifeNeed (P : Inputs) : ℚ :=
  max (incomeYear P * yearsToProtect P + (P.mortgagePrincipal + P.carPrincipal)
        + educationReserveGuess (monthlyExpense P)
        - netAssets P - P.lifeCoverHave) 0

/-- TS `ciNeed = Math.max(incomeYear * 3 - ciCoverHave, 0)`. -/
def ciNeed (P : Inputs) : ℚ := max (incomeYear P * 3 - P.ciCoverHave) 0

/-- TS `need = annualExpenseAtRetire * (1+inflation)^(currentAge - retireAge)`:
the decumulation-year withdrawal of simulated year `y` (where the simulated
age is `age + y`), in the chart loop and in the Monte Carlo loop. -/
def need (P : Inputs) (y : ℕ) : ℚ :=
  annualExpenseAtRetire P * (1 + P.inflation) ^ (P.age + (y : ℤ) - P.retireAge).toNat

/-- One iteration of the deterministic chart loop: the wealth update of
simulated year `y` (accumulation below `retireAge`, decumulation from it on). -/
def chartStep (P : Inputs) (y : ℕ) (w : ℚ) : ℚ :=
  if P.age + (y : ℤ) < P.retireAge then
    w * (1 + P.returnBefore) + yearlySavingTraj P
  else
    w * (1 + P.returnAfter) - need P y

/-- The running `wealth` variable of the chart loop: `wealthPre P y` is its
value before iteration `y` (so `wealthPre P 0` is the initial
`Math.max(currentAssets - currentDebt, 0)`). -/
def wealthPre (P : Inputs) : ℕ → ℚ
  | 0 => netAssets P
  | y + 1 => chartStep P y (wealthPre P y)

/-- One element of the `chartData` array: `{age, wealth, draw?}`. -/
structure YearRecord where
  age : ℤ
  wealth : ℚ
  draw : Option ℚ
deriving DecidableEq

/-- The record the chart loop pushes for simulated year `y`: wealth is the
updated running wealth clamped at 0, and `draw` is present exactly on the
decumulation branch. -/
def chartRecord (P : Inputs) (y : ℕ) : YearRecord :=
  if P.age + (y : ℤ) < P.retireAge then
    { age := P.age + y, wealth := max (wealthPre P (y + 1)) 0, draw := none }
  else
    { age := P.age + y, wealth := max (wealthPre P (y + 1)) 0, draw := some (need P y) }

/-- Number of iterations of the chart loop (`for y = 0; y <= lifeExpectancy - age`),
which is also the number of Monte Carlo years per trial. -/
def numYears (P : Inputs) : ℕ := (P.lifeExpectancy - P.age + 1).toNat

/-- TS `chartData` from App.tsx: the deterministic wealth trajectory, one record
per simulated year. -/
def chartData (P : Inputs) : List YearRecord :=
  (List.range (numYears P)).map (chartRecord P)

/-- One iteration of a Monte Carlo trial with sampled return `r` for year `y`:
the same update as `chartStep` with `r` in place of the deterministic rate,
plus the one-time `bearShock` multiplier at `y = 0` in accumulation. -/
def mcStep (P : Inputs) (r : ℚ) (y : ℕ) (w : ℚ) : ℚ :=
  if P.age + (y : ℤ) < P.retireAge then
    let w1 := w * (1 + r) + yearlySavingTraj P
    if y = 0 then w1 * (1 + P.bearShock) else w1
  else
    w * (1 + r) - need P y

/-- The inner Monte Carlo loop with its early `break`: starting at year `y`
with `fuel` remaining iterations and running wealth `w`, returns the `ok` flag of the trial.  A year whose updated wealth is ≤ 0 in the decumulation branch
marks the trial failed and evaluates no further years. -/
def mcAux (P : Inputs) (rs : ℕ → ℚ) : ℕ → ℕ → ℚ → Bool
  | _, 0, _ => true
  | y, fuel + 1, w =>
    let w1 := mcStep P (rs y) y w
    if P.retireAge ≤ P.age + (y : ℤ) ∧ w1 ≤ 0 then false
    else mcAux P rs (y + 1) fuel w1

/-- One Monte Carlo trial given its stream `rs` of sampled annual returns:
`true` iff the trial reaches the final simulated year without failing. -/
def mcTrialOk (P : Inputs) (rs : ℕ → ℚ) : Bool :=
  mcAux P rs 0 (numYears P) (netAssets P)

/-- The Monte Carlo running wealth without the early break: `mcWealthPre P rs y`
is the wealth of the trial before year `y`. -/
def mcWealthPre (P : Inputs) (rs : ℕ → ℚ) : ℕ → ℚ
  | 0 => netAssets P
  | y + 1 => mcStep P (rs y) y (mcWealthPre P rs y)

/-- The `results` array of the Monte Carlo block: one `1`/`0` entry per trial,
trial `i` drawing its annual returns from the stream `rss i`. -/
def mcResults (P : Inputs) (rss : ℕ → ℕ → ℚ) : List ℚ :=
  (List.range P.runs).map fun i => if mcTrialOk P (rss i) then 1 else 0

/-- TS `prob = results.reduce((a,b)=>a+b,0) / Math.max(runs,1)`. -/
def mcSuccessProb (P : Inputs) (rss : ℕ → ℕ → ℚ) : ℚ :=
  (mcResults P rss).sum / (max P.runs 1 : ℕ)

/-- Number of trials whose simulated wealth never failed. -/
def mcSuccessCount (P : Inputs) (rss : ℕ → ℕ → ℚ) : ℕ :=
  ((List.range P.runs).filter fun i => mcTrialOk P (rss i)).length

/-- Rejection loop of the TS `randomNormal`: the first value of the uniform source
`src` that is not 0 (`while (u === 0) u = Math.random()`). -/
def firstNonzeroDraw (src : ℕ → ℚ) (h : ∃ i, src i ≠ 0) : ℚ :=
  src (Nat.find h)

/-- The two uniform draws `(u, v)` of `randomNormal` after their rejection
loops, given the uniform sources backing `Math.random()`. -/
def randomNormalUV (srcU srcV : ℕ → ℚ)
    (hu : ∃ i, srcU i ≠ 0) (hv : ∃ i, srcV i ≠ 0) : ℚ × ℚ :=
  (firstNonzeroDraw srcU hu, firstNonzeroDraw srcV hv)

/-- Scaling of every currency input by `k`: incomes, expense components,
assets, debt, monthly savings, goal target amounts and existing cover
amounts. -/
def scaleCurrency (k : ℚ) (P : Inputs) : Inputs :=
  { P with
    incomeMain := k * P.incomeMain
    incomeSide := k * P.incomeSide
    expBasic := k * P.expBasic
    expHealth := k * P.expHealth
    expLifestyle := k * P.expLifestyle
    currentAssets := k * P.currentAssets
    currentDebt := k * P.currentDebt
    currentSavingPerMonth := k * P.currentSavingPerMonth
    goals := P.goals.map fun g => { g with target := k * g.target }
    lifeCoverHave := k * P.lifeCoverHave
    ciCoverHave := k * P.ciCoverHave }

/-- A small well-formed concrete parameter set used to instantiate proved
theorems: ordering invariant satisfied, zero rates, two Monte Carlo trials. -/
def Pex : Inputs :=
  { age := 30, retireAge := 32, lifeExpectancy := 34
    inflation := 0, returnBefore := 0, returnAfter := 0
    incomeMain := 10, incomeSide := 0
    expBasic := 1, expHealth := 0, expLifestyle := 0
    currentAssets := 100, currentDebt := 0, currentSavingPerMonth := 1
    pvdRate := 0
    mortgagePrincipal := 0, mortgageRate := 0, mortgageYears := 0
    carPrincipal := 0, carRate := 0, carYears := 0
    goals := [], lifeCoverHave := 0, ciCoverHave := 0
    bearShock := 0, stdevBefore := 0, stdevAfter := 0
    runs := 2, currentYear := 0 }

/-- A degenerate concrete parameter set with `inflation = -2`: its
decumulation withdrawals alternate in sign year over year. -/
def Pneg : Inputs :=
  { age := 0, retireAge := 0, lifeExpectancy := 1
    inflation := -2, returnBefore := 0, returnAfter := 0
    incomeMain := 0, incomeSide := 0
    expBasic := 1, expHealth := 0, expLifestyle := 0
    currentAssets := 6, currentDebt := 0, currentSavingPerMonth := 0
    pvdRate := 0
    mortgagePrincipal := 0, mortgageRate := 0, mortgageYears := 0
    carPrincipal := 0, carRate := 0, carYears := 0
    goals := [], lifeCoverHave := 0, ciCoverHave := 0
    bearShock := 0, stdevBefore := 0, stdevAfter := 0
    runs := 1, currentYear := 0 }

/-- A concrete parameter set already at retirement with no assets: its
deterministic trajectory reports wealth 0 in every decumulation year. -/
def Pzero : Inputs :=
  { age := 0, retireAge := 0, lifeExpectancy := 1
    inflation := 0, returnBefore := 0, returnAfter := 0
    incomeMain := 0, incomeSide := 0
    expBasic := 1, expHealth := 0, expLifestyle := 0
    currentAssets := 0, currentDebt := 0, currentSavingPerMonth := 0
    pvdRate := 0
    mortgagePrincipal := 0, mortgageRate := 0, mortgageYears := 0
    carPrincipal := 0, carRate := 0, carYears := 0
    goals := [], lifeCoverHave := 0, ciCoverHave := 0
    bearShock := 0, stdevBefore := 0, stdevAfter := 0
    runs := 1, currentYear := 0 }

/-! Helper lemmas. -/

/-- Both branches of `requiredSavingsPerYear` are the clamped gap times a
factor depending only on the rate and the horizon. -/
lemma requiredSavingsPerYear_eq (t a r : ℚ) (y : ℕ) :
    requiredSavingsPerYear t a r y =
      max (t - fv a r y) 0 * (if r = 0 then ((y : ℚ))⁻¹ else r / ((1 + r) ^ y - 1)) := by
  simp only [requiredSavingsPerYear]
  split_ifs with h0 hr
  · simp [h0]
  · simp [h0]
  · rfl
  · rw [mul_div_assoc]

/-- The per-unit-of-gap factor of `requiredSavingsPerYear` is non-negative
whenever the rate is at least −1. -/
lemma rsFactor_nonneg (r : ℚ) (y : ℕ) (hr : -1 ≤ r) :
    0 ≤ (if r = 0 then ((y : ℚ))⁻¹ else r / ((1 + r) ^ y - 1)) := by
  split_ifs with hr0
  · exact inv_nonneg.mpr (Nat.cast_nonneg y)
  · rcases Nat.eq_zero_or_pos y with hy | hy
    · simp [hy]
    · rcases lt_or_gt_of_ne hr0 with hneg | hpos
      · have h1 : (0:ℚ) ≤ 1 + r := by linarith
        have h2 : (1 + r) ^ y < 1 := pow_lt_one₀ h1 (by linarith) (Nat.pos_iff_ne_zero.mp hy)
        rw [div_nonneg_iff]
        exact Or.inr ⟨le_of_lt hneg, by linarith⟩
      · have h2 : 1 < (1 + r) ^ y := one_lt_pow₀ (by linarith) (Nat.pos_iff_ne_zero.mp hy)
        exact div_nonneg (le_of_lt hpos) (by linarith)

/-- For rates at least −1 the required level contribution is never negative. -/
lemma requiredSavingsPerYear_nonneg (t a r : ℚ) (y : ℕ) (hr : -1 ≤ r) :
    0 ≤ requiredSavingsPerYear t a r y := by
  rw [requiredSavingsPerYear_eq]
  exact mul_nonneg (le_max_right _ _) (rsFactor_nonneg r y hr)

/-! Claims. -/

/-- C5 (counterexample): for the rate −3 (outside the conventional range but
allowed by the quantifier "for every rate" in the claim), raising the target from 0 to 10
with periods = 2 (so the documented precondition holds) strictly lowers the
required contribution, refuting monotone non-decrease in the target. -/
theorem C5_counterexample :
    (0:ℚ) ≤ 10 ∧ 0 < (2:ℕ) ∧
    requiredSavingsPerYear 10 0 (-3) 2 < requiredSavingsPerYear 0 0 (-3) 2 := by
  refine ⟨by norm_num, by norm_num, ?_⟩
  norm_num [requiredSavingsPerYear, fv]

/-- C5 (amended): for every rate ≥ −1, under the documented precondition
(periods > 0 whenever the clamped gap is positive, stated for each compared
input), `requiredSavingsPerYear` is monotonically non-decreasing in the
target future value and monotonically non-increasing in the current
principal, holding the other parameters fixed. -/
theorem C5_requiredSavings_monotone (r : ℚ) (y : ℕ) (hr : -1 ≤ r) :
    (∀ t1 t2 a : ℚ, t1 ≤ t2 →
        (0 < max (t1 - fv a r y) 0 → 0 < y) → (0 < max (t2 - fv a r y) 0 → 0 < y) →
        requiredSavingsPerYear t1 a r y ≤ requiredSavingsPerYear t2 a r y) ∧
    (∀ t a1 a2 : ℚ, a1 ≤ a2 →
        (0 < max (t - fv a1 r y) 0 → 0 < y) → (0 < max (t - fv a2 r y) 0 → 0 < y) →
        requiredSavingsPerYear t a2 r y ≤ requiredSavingsPerYear t a1 r y) := by
  have hfac := rsFactor_nonneg r y hr
  constructor
  · intro t1 t2 a ht _ _
    rw [requiredSavingsPerYear_eq, requiredSavingsPerYear_eq]
    exact mul_le_mul_of_nonneg_right (max_le_max (sub_le_sub_right ht _) le_rfl) hfac
  · intro t a1 a2 ha _ _
    rw [requiredSavingsPerYear_eq, requiredSavingsPerYear_eq]
    refine mul_le_mul_of_nonneg_right (max_le_max ?_ le_rfl) hfac
    refine sub_le_sub_left ?_ _
    unfold fv
    exact mul_le_mul_of_nonneg_right ha (pow_nonneg (by linarith) _)

/-- Witness instantiating `C5_requiredSavings_monotone` at rate 0,
one period, concrete targets and principals. -/
theorem C5_witness :
    requiredSavingsPerYear 1 0 0 1 ≤ requiredSavingsPerYear 2 0 0 1 ∧
    requiredSavingsPerYear 2 1 0 1 ≤ requiredSavingsPerYear 2 0 0 1 :=
  ⟨(C5_requiredSavings_monotone 0 1 (by norm_num)).1 1 2 0 (by norm_num)
      (fun _ => Nat.one_pos) (fun _ => Nat.one_pos),
   (C5_requiredSavings_monotone 0 1 (by norm_num)).2 2 0 1 (by norm_num)
      (fun _ => Nat.one_pos) (fun _ => Nat.one_pos)⟩

/-- C6: at rate 0 the time-value functions reduce to their linear forms:
`fvSeries p 0 n = p·n` and `annuityCorpus x 0 n = x·n` for every `n > 0`,
and `pmtMonthly pr 0 y = pr/(y·12)` for every `y > 0`; in particular
`pmtMonthly 120000 0 10 = 1000`. -/
theorem C6_zero_rate_linear :
    (∀ (p : ℚ) (n : ℕ), 0 < n → fvSeries p 0 n = p * n) ∧
    (∀ (x : ℚ) (n : ℕ), 0 < n → annuityCorpus x 0 n = x * n) ∧
    (∀ (pr : ℚ) (y : ℕ), 0 < y → pmtMonthly pr 0 y = pr / ((y : ℚ) * 12)) ∧
    pmtMonthly 120000 0 10 = 1000 := by
  refine ⟨?_, ?_, ?_, by norm_num [pmtMonthly]⟩
  · intro p n hn
    unfold fvSeries
    rw [if_neg (by omega), if_pos rfl]
  · intro x n hn
    unfold annuityCorpus
    rw [if_neg (by omega), if_pos rfl]
  · intro pr y hy
    simp only [pmtMonthly]
    rw [if_pos (by norm_num)]
    push_cast
    ring

/-- Witness instantiating `C6_zero_rate_linear` at concrete horizons. -/
theorem C6_witness :
    fvSeries 5 0 3 = 5 * ((3:ℕ):ℚ) ∧ annuityCorpus 7 0 4 = 7 * ((4:ℕ):ℚ) ∧
    pmtMonthly 9 0 3 = 9 / (((3:ℕ):ℚ) * 12) :=
  ⟨C6_zero_rate_linear.1 5 3 (by norm_num),
   C6_zero_rate_linear.2.1 7 4 (by norm_num),
   C6_zero_rate_linear.2.2.1 9 3 (by norm_num)⟩

/-- C7: the annual savings term of the accumulation steps (chart loop and
Monte Carlo loop), `(currentSavingPerMonth + incomeYear·pvdRate/12)·12`,
equals the annual savings rate of the readiness calculator,
`currentSavingPerMonth·12 + incomeYear·pvdRate`, for every input. -/
theorem C7_savings_rate_agree : ∀ P : Inputs, yearlySavingTraj P = yearlySavingProj P := by
  intro P
  unfold yearlySavingTraj yearlySavingProj
  ring

/-- The age of the chart record of simulated year `y`. -/
lemma chartRecord_age (P : Inputs) (y : ℕ) : (chartRecord P y).age = P.age + y := by
  unfold chartRecord
  split <;> rfl

/-- The reported wealth of the chart record of simulated year `y` is the
running wealth after the step of that year, clamped at 0. -/
lemma chartRecord_wealth (P : Inputs) (y : ℕ) :
    (chartRecord P y).wealth = max (wealthPre P (y + 1)) 0 := by
  unfold chartRecord
  split <;> rfl

/-- A chart record carries a withdrawal exactly on the decumulation branch. -/
lemma chartRecord_draw_isSome (P : Inputs) (y : ℕ) :
    (chartRecord P y).draw.isSome = decide (P.retireAge ≤ P.age + (y : ℤ)) := by
  unfold chartRecord
  split
  next h => simp [not_le.mpr h]
  next h => simp [le_of_not_lt h]

/-- The trajectory has one record per loop iteration. -/
lemma chartData_length (P : Inputs) : (chartData P).length = numYears P := by
  simp [chartData]

/-- The `i`-th trajectory record is the record of simulated year `i`. -/
lemma chartData_get (P : Inputs) (i : ℕ) (hi : i < (chartData P).length) :
    (chartData P).get ⟨i, hi⟩ = chartRecord P i := by
  simp [chartData, List.get_eq_getElem, List.getElem_map, List.getElem_range]

/-- C2: under the ordering invariant, the deterministic trajectory has
exactly `lifeExpectancy − currentAge + 1` records, the ages are
`currentAge, currentAge+1, …` in order, and a record carries a withdrawal
field if and only if its age is at least `retireAge`. -/
theorem C2_trajectory_shape (P : Inputs)
    (hA : P.age ≤ P.retireAge) (hR : P.retireAge ≤ P.lifeExpectancy) :
    (((chartData P).length : ℤ) = P.lifeExpectancy - P.age + 1) ∧
    ((chartData P).map YearRecord.age = (List.range (numYears P)).map fun y : ℕ => P.age + (y : ℤ)) ∧
    (((chartData P).all fun r => r.draw.isSome == decide (P.retireAge ≤ r.age)) = true) := by
  refine ⟨?_, ?_, ?_⟩
  · rw [chartData_length]
    unfold numYears
    rw [Int.toNat_of_nonneg (by omega)]
  · rw [chartData, List.map_map]
    refine List.map_congr_left fun y _ => ?_
    simp [Function.comp, chartRecord_age]
  · rw [List.all_eq_true]
    intro r hr
    rw [chartData, List.mem_map] at hr
    obtain ⟨y, _, rfl⟩ := hr
    rw [chartRecord_draw_isSome, chartRecord_age]
    simp

/-- Witness instantiating `C2_trajectory_shape` at the concrete input
`Pex` (ages 30 / 32 / 34). -/
theorem C2_witness :
    (((chartData Pex).length : ℤ) = Pex.lifeExpectancy - Pex.age + 1) ∧
    ((chartData Pex).map YearRecord.age =
      (List.range (numYears Pex)).map fun y : ℕ => Pex.age + (y : ℤ)) ∧
    (((chartData Pex).all fun r => r.draw.isSome == decide (Pex.retireAge ≤ r.age)) = true) :=
  C2_trajectory_shape Pex (by decide) (by decide)

/-- C1: under the documented invariants (here: the pre-retirement return is
at least −1), the reported trajectory wealth values, the required monthly
savings, the projected corpus and the two recommended covers are all
non-negative. -/
theorem C1_monetary_nonneg (P : Inputs) (hr : -1 ≤ P.returnBefore) :
    (((chartData P).all fun r => decide (0 ≤ r.wealth)) = true) ∧
    0 ≤ requiredSavingPerMonth P ∧ 0 ≤ projectedFVAtRetire P ∧
    0 ≤ lifeNeed P ∧ 0 ≤ ciNeed P := by
  refine ⟨?_, ?_, le_max_right _ _, le_max_right _ _, le_max_right _ _⟩
  · rw [List.all_eq_true]
    intro r hrec
    rw [chartData, List.mem_map] at hrec
    obtain ⟨y, _, rfl⟩ := hrec
    simp [chartRecord_wealth]
  · exact div_nonneg (requiredSavingsPerYear_nonneg _ _ _ _ hr) (by norm_num)

/-- Witness instantiating `C1_monetary_nonneg` at the concrete input `Pex`. -/
theorem C1_witness :
    (((chartData Pex).all fun r => decide (0 ≤ r.wealth)) = true) ∧
    0 ≤ requiredSavingPerMonth Pex ∧ 0 ≤ projectedFVAtRetire Pex ∧
    0 ≤ lifeNeed Pex ∧ 0 ≤ ciNeed Pex :=
  C1_monetary_nonneg Pex (by decide)

/-- Replacing the goals collection does not change a chart step. -/
lemma chartStep_goals (P : Inputs) (gs : List Goal) (y : ℕ) (w : ℚ) :
    chartStep { P with goals := gs } y w = chartStep P y w := rfl

/-- Replacing the goals collection does not change the running chart wealth. -/
lemma wealthPre_goals (P : Inputs) (gs : List Goal) :
    ∀ y, wealthPre { P with goals := gs } y = wealthPre P y := by
  intro y
  induction y with
  | zero => rfl
  | succ y ih =>
    show chartStep { P with goals := gs } y (wealthPre { P with goals := gs } y)
        = chartStep P y (wealthPre P y)
    rw [ih, chartStep_goals]

/-- Replacing the goals collection does not change a chart record. -/
lemma chartRecord_goals (P : Inputs) (gs : List Goal) (y : ℕ) :
    chartRecord { P with goals := gs } y = chartRecord P y := by
  unfold chartRecord
  rw [wealthPre_goals]
  rfl

/-- C8: the deterministic trajectory is independent of the goals collection,
even though the projected corpus does depend on it. -/
theorem C8_trajectory_ignores_goals :
    (∀ (P : Inputs) (gs : List Goal), chartData { P with goals := gs } = chartData P) ∧
    (∃ (P : Inputs) (gs : List Goal),
        projectedFVAtRetire { P with goals := gs } ≠ projectedFVAtRetire P) := by
  constructor
  · intro P gs
    unfold chartData
    exact List.map_congr_left fun y _ => chartRecord_goals P gs y
  · refine ⟨Pex, [⟨"g1", "travel", 50, 0, 1⟩], ?_⟩
    have hA : projectedFVAtRetire Pex = 124 := by
      simp [projectedFVAtRetire, fv, fvSeries, netAssets, yearsToRetire,
        yearlySavingProj, incomeYear, spendGoals, Pex, max_def]
      norm_num
    have hB : projectedFVAtRetire { Pex with goals := [⟨"g1", "travel", 50, 0, 1⟩] } = 74 := by
      simp [projectedFVAtRetire, fv, fvSeries, netAssets, yearsToRetire,
        yearlySavingProj, incomeYear, spendGoals, List.filter, Pex, max_def]
      norm_num
    rw [hA, hB]
    norm_num

/-- Every decumulation withdrawal is non-negative when the expense components
are non-negative and the inflation rate is at least −1. -/
lemma need_nonneg (P : Inputs) (hinfl : -1 ≤ P.inflation)
    (hb : 0 ≤ P.expBasic) (hh : 0 ≤ P.expHealth) (hl : 0 ≤ P.expLifestyle) (y : ℕ) :
    0 ≤ need P y := by
  unfold need annualExpenseAtRetire annualExpenseToday monthlyExpense
  have h1 : (0:ℚ) ≤ 1 + P.inflation := by linarith
  exact mul_nonneg
    (mul_nonneg (mul_nonneg (by linarith) (by norm_num)) (pow_nonneg h1 _))
    (pow_nonneg h1 _)

/-- Once the running chart wealth is non-positive in a decumulation year it
stays non-positive forever (post-retirement return above −1, non-negative
expenses, inflation at least −1). -/
lemma wealthPre_decum_nonpos (P : Inputs) (hrA : -1 < P.returnAfter)
    (hinfl : -1 ≤ P.inflation)
    (hb : 0 ≤ P.expBasic) (hh : 0 ≤ P.expHealth) (hl : 0 ≤ P.expLifestyle)
    (i : ℕ) (hdec : P.retireAge ≤ P.age + (i : ℤ))
    (h0 : wealthPre P (i + 1) ≤ 0) :
    ∀ j, i ≤ j → wealthPre P (j + 1) ≤ 0 := by
  intro j hj
  induction j, hj using Nat.le_induction with
  | base => exact h0
  | succ j hij ih =>
    show chartStep P (j + 1) (wealthPre P (j + 1)) ≤ 0
    unfold chartStep
    rw [if_neg (by push_cast; omega)]
    have hn := need_nonneg P hinfl hb hh hl (j + 1)
    have h1 : (0:ℚ) ≤ 1 + P.returnAfter := by linarith
    have h2 := mul_le_mul_of_nonneg_right ih h1
    linarith

/-- C10 (amended): with post-retirement return above −1, non-negative expense
components and inflation at least −1, reported zero wealth is absorbing in
decumulation: a decumulation record reporting wealth 0 forces every later
record to report wealth 0. -/
theorem C10_zero_absorbing (P : Inputs) (hrA : -1 < P.returnAfter)
    (hinfl : -1 ≤ P.inflation)
    (hb : 0 ≤ P.expBasic) (hh : 0 ≤ P.expHealth) (hl : 0 ≤ P.expLifestyle)
    (i j : ℕ) (hi : i < (chartData P).length) (hj : j < (chartData P).length)
    (hij : i ≤ j) (hdec : P.retireAge ≤ P.age + (i : ℤ))
    (h0 : ((chartData P).get ⟨i, hi⟩).wealth = 0) :
    ((chartData P).get ⟨j, hj⟩).wealth = 0 := by
  rw [chartData_get, chartRecord_wealth] at h0 ⊢
  have hw : wealthPre P (i + 1) ≤ 0 := by
    by_contra hcon
    push_neg at hcon
    rw [max_eq_left (le_of_lt hcon)] at h0
    exact absurd h0 (ne_of_gt hcon)
  exact max_eq_right (wealthPre_decum_nonpos P hrA hinfl hb hh hl i hdec hw j hij)

/-- C10 (counterexample to the claim as stated): with `inflation = -2` the
withdrawal of the second decumulation year is negative, so wealth reported 0
at the first decumulation record becomes positive again one year later, even
though the post-retirement return is above −1 and all expense components are
non-negative. -/
theorem C10_counterexample :
    (-1 < Pneg.returnAfter ∧ 0 ≤ Pneg.expBasic ∧ 0 ≤ Pneg.expHealth ∧
      0 ≤ Pneg.expLifestyle) ∧
    Pneg.retireAge ≤ Pneg.age + ((0:ℕ) : ℤ) ∧
    ((chartData Pneg).get ⟨0, by decide⟩).wealth = 0 ∧
    ((chartData Pneg).get ⟨1, by decide⟩).wealth ≠ 0 := by
  have h1 : wealthPre Pneg 1 = -6 := by
    norm_num [wealthPre, chartStep, need, annualExpenseAtRetire, annualExpenseToday,
      monthlyExpense, yearsToRetire, netAssets, yearlySavingTraj, incomeYear, Pneg,
      Int.reduceToNat]
  have h2 : wealthPre Pneg 2 = 6 := by
    norm_num [wealthPre, chartStep, need, annualExpenseAtRetire, annualExpenseToday,
      monthlyExpense, yearsToRetire, netAssets, yearlySavingTraj, incomeYear, Pneg,
      Int.reduceToNat]
  refine ⟨⟨by decide, by decide, by decide, by decide⟩, by decide, ?_, ?_⟩
  · rw [chartData_get, chartRecord_wealth, h1]
    norm_num
  · rw [chartData_get, chartRecord_wealth, h2]
    norm_num

/-- Scaling the annual payment scales the annuity present value. -/
lemma annuityCorpus_smul (k x r : ℚ) (y : ℕ) :
    annuityCorpus (k * x) r y = k * annuityCorpus x r y := by
  unfold annuityCorpus
  split_ifs <;> ring

/-- Scaling the payment scales the future value of the payment series. -/
lemma fvSeries_smul (k x r : ℚ) (n : ℕ) : fvSeries (k * x) r n = k * fvSeries x r n := by
  unfold fvSeries
  split_ifs <;> ring

/-- Scaling the principal scales the future value. -/
lemma fv_smul (k a r : ℚ) (n : ℕ) : fv (k * a) r n = k * fv a r n := by
  unfold fv
  ring

/-- Scaling by a non-negative factor commutes with clamping at zero. -/
lemma mul_max_zero (k a : ℚ) (hk : 0 ≤ k) : k * max a 0 = max (k * a) 0 := by
  rw [mul_max_of_nonneg _ _ hk, mul_zero]

/-- Scaling every goal target scales the inflation-adjusted goal spending. -/
lemma sum_goals_scale (k : ℚ) (cY bound : ℤ) (infl : ℚ) (l : List Goal) :
    (((l.map fun g => { g with target := k * g.target }).filter
        fun g => decide (g.year ≤ bound)).map
      fun g => g.target * (1 + infl) ^ (g.year - cY)).sum
    = k * ((l.filter fun g => decide (g.year ≤ bound)).map
        fun g => g.target * (1 + infl) ^ (g.year - cY)).sum := by
  induction l with
  | nil => simp
  | cons g l ih =>
    by_cases hgy : g.year ≤ bound
    · simp only [List.map_cons, List.filter_cons]
      simp [hgy, ih]
      ring
    · simp only [List.map_cons, List.filter_cons]
      simp [hgy, ih]

/-- Currency scaling scales the target corpus. -/
lemma targetCorpus_scale (k : ℚ) (P : Inputs) :
    targetCorpus (scaleCurrency k P) = k * targetCorpus P := by
  have h : annualExpenseAtRetire (scaleCurrency k P) = k * annualExpenseAtRetire P := by
    unfold annualExpenseAtRetire annualExpenseToday monthlyExpense yearsToRetire
    simp only [scaleCurrency]
    ring
  unfold targetCorpus
  rw [show (scaleCurrency k P).returnAfter = P.returnAfter from rfl,
    show yearsInRetirement (scaleCurrency k P) = yearsInRetirement P from rfl,
    h, annuityCorpus_smul]

/-- Currency scaling by a non-negative factor scales net current assets. -/
lemma netAssets_scale (k : ℚ) (P : Inputs) (hk : 0 ≤ k) :
    netAssets (scaleCurrency k P) = k * netAssets P := by
  unfold netAssets
  simp only [scaleCurrency]
  rw [mul_max_zero _ _ hk, mul_sub]

/-- Currency scaling scales the goal spending term. -/
lemma spendGoals_scale (k : ℚ) (P : Inputs) :
    spendGoals (scaleCurrency k P) = k * spendGoals P := by
  unfold spendGoals
  rw [show yearsToRetire (scaleCurrency k P) = yearsToRetire P from rfl,
    show (scaleCurrency k P).currentYear = P.currentYear from rfl,
    show (scaleCurrency k P).inflation = P.inflation from rfl,
    show (scaleCurrency k P).goals
      = P.goals.map (fun g => { g with target := k * g.target }) from rfl]
  exact sum_goals_scale k P.currentYear (P.currentYear + (yearsToRetire P : ℤ))
    P.inflation P.goals

/-- Currency scaling by a non-negative factor scales the projected corpus. -/
lemma projectedFVAtRetire_scale (k : ℚ) (P : Inputs) (hk : 0 ≤ k) :
    projectedFVAtRetire (scaleCurrency k P) = k * projectedFVAtRetire P := by
  have hys : yearlySavingProj (scaleCurrency k P) = k * yearlySavingProj P := by
    unfold yearlySavingProj incomeYear
    simp only [scaleCurrency]
    ring
  unfold projectedFVAtRetire
  rw [show (scaleCurrency k P).returnBefore = P.returnBefore from rfl,
    show yearsToRetire (scaleCurrency k P) = yearsToRetire P from rfl,
    netAssets_scale k P hk, hys, spendGoals_scale, fv_smul, fvSeries_smul,
    mul_max_zero _ _ hk]
  ring_nf

/-- Currency scaling by a positive factor leaves the readiness ratio alone. -/
lemma readiness_scale (k : ℚ) (P : Inputs) (hk : 0 < k) :
    readiness (scaleCurrency k P) = readiness P := by
  unfold readiness
  rw [targetCorpus_scale, projectedFVAtRetire_scale k P (le_of_lt hk)]
  by_cases ht : targetCorpus P > 0
  · rw [if_pos ht, if_pos (mul_pos hk ht)]
    field_simp
    ring
  · have h2 : ¬ (k * targetCorpus P > 0) := by
      push_neg at ht ⊢
      calc k * targetCorpus P ≤ k * 0 := mul_le_mul_of_nonneg_left ht (le_of_lt hk)
      _ = 0 := mul_zero k
    rw [if_neg ht, if_neg h2]

/-- C4: scaling every currency input by a positive constant `k` scales the
target corpus and the projected corpus by exactly `k` and leaves the
readiness ratio unchanged. -/
theorem C4_currency_scaling (P : Inputs) (k : ℚ) (hk : 0 < k) :
    targetCorpus (scaleCurrency k P) = k * targetCorpus P ∧
    projectedFVAtRetire (scaleCurrency k P) = k * projectedFVAtRetire P ∧
    readiness (scaleCurrency k P) = readiness P :=
  ⟨targetCorpus_scale k P, projectedFVAtRetire_scale k P (le_of_lt hk),
    readiness_scale k P hk⟩

/-- Witness instantiating `C4_currency_scaling` at `k = 2` and `Pex`. -/
theorem C4_witness :
    targetCorpus (scaleCurrency 2 Pex) = 2 * targetCorpus Pex ∧
    projectedFVAtRetire (scaleCurrency 2 Pex) = 2 * projectedFVAtRetire Pex ∧
    readiness (scaleCurrency 2 Pex) = readiness Pex :=
  C4_currency_scaling Pex 2 (by norm_num)

/-- Witness instantiating `C10_zero_absorbing` at the concrete input `Pzero`. -/
theorem C10_witness : ((chartData Pzero).get ⟨1, by decide⟩).wealth = 0 :=
  C10_zero_absorbing Pzero (by decide) (by decide) (by decide) (by decide) (by decide)
    0 1 (by decide) (by decide) (by decide) (by decide)
    (by
      rw [chartData_get, chartRecord_wealth]
      have h1 : wealthPre Pzero 1 = -12 := by
        norm_num [wealthPre, chartStep, need, annualExpenseAtRetire, annualExpenseToday,
          monthlyExpense, yearsToRetire, netAssets, yearlySavingTraj, incomeYear, Pzero,
          Int.reduceToNat]
      rw [h1]
      norm_num)

/-- C9: given uniform sources with values in [0, 1), the rejection loops of
`randomNormal` retain strictly positive draws `u` and `v`, so the logarithm
in the Box–Muller transform is applied only to a strictly positive argument. -/
theorem C9_draws_positive (srcU srcV : ℕ → ℚ)
    (hu : ∃ i, srcU i ≠ 0) (hv : ∃ i, srcV i ≠ 0)
    (hU : ∀ i, 0 ≤ srcU i ∧ srcU i < 1) (hV : ∀ i, 0 ≤ srcV i ∧ srcV i < 1) :
    0 < (randomNormalUV srcU srcV hu hv).1 ∧ 0 < (randomNormalUV srcU srcV hu hv).2 := by
  constructor
  · exact lt_of_le_of_ne (hU (Nat.find hu)).1 (Ne.symm (Nat.find_spec hu))
  · exact lt_of_le_of_ne (hV (Nat.find hv)).1 (Ne.symm (Nat.find_spec hv))

/-- Witness instantiating `C9_draws_positive` at constant sources 1/2. -/
theorem C9_witness :
    0 < (randomNormalUV (fun _ => (1:ℚ)/2) (fun _ => (1:ℚ)/2)
        ⟨0, by norm_num⟩ ⟨0, by norm_num⟩).1 ∧
    0 < (randomNormalUV (fun _ => (1:ℚ)/2) (fun _ => (1:ℚ)/2)
        ⟨0, by norm_num⟩ ⟨0, by norm_num⟩).2 :=
  C9_draws_positive _ _ _ _ (fun _ => ⟨by norm_num, by norm_num⟩)
    (fun _ => ⟨by norm_num, by norm_num⟩)

/-- The early-exit trial loop succeeds iff the no-stop wealth sequence stays
positive at every decumulation year inside the window. -/
lemma mcAux_true_iff (P : Inputs) (rs : ℕ → ℚ) :
    ∀ (fuel y : ℕ),
      (mcAux P rs y fuel (mcWealthPre P rs y) = true ↔
        ∀ j, y ≤ j → j < y + fuel → P.retireAge ≤ P.age + (j : ℤ) →
          0 < mcWealthPre P rs (j + 1)) := by
  intro fuel
  induction fuel with
  | zero =>
    intro y
    constructor
    · intro _ j hj1 hj2 _
      exact absurd hj2 (by omega)
    · intro _
      rfl
  | succ fuel ih =>
    intro y
    have hunfold : mcAux P rs y (fuel + 1) (mcWealthPre P rs y)
        = if P.retireAge ≤ P.age + (y : ℤ) ∧ mcWealthPre P rs (y + 1) ≤ 0 then false
          else mcAux P rs (y + 1) fuel (mcWealthPre P rs (y + 1)) := rfl
    rw [hunfold]
    by_cases hc : P.retireAge ≤ P.age + (y : ℤ) ∧ mcWealthPre P rs (y + 1) ≤ 0
    · rw [if_pos hc]
      exact iff_of_false (by simp)
        (fun hall => absurd (hall y le_rfl (by omega) hc.1) (not_lt.mpr hc.2))
    · rw [if_neg hc, ih (y + 1)]
      constructor
      · intro h j hj1 hj2 hdec
        rcases eq_or_lt_of_le hj1 with rfl | hlt
        · rcases not_and_or.mp hc with h1 | h2
          · exact absurd hdec h1
          · exact not_le.mp h2
        · exact h j (by omega) (by omega) hdec
      · intro hall j hj1 hj2 hdec
        exact hall j (by omega) (by omega) hdec

/-- A trial is marked failed iff some decumulation year of its horizon drives
the running wealth to ≤ 0. -/
lemma mcTrialOk_false_iff (P : Inputs) (rs : ℕ → ℚ) :
    mcTrialOk P rs = false ↔
      ∃ y, y < numYears P ∧ P.retireAge ≤ P.age + (y : ℤ) ∧
        mcWealthPre P rs (y + 1) ≤ 0 := by
  have h := mcAux_true_iff P rs (numYears P) 0
  rw [show mcTrialOk P rs = mcAux P rs 0 (numYears P) (mcWealthPre P rs 0) from rfl]
  constructor
  · intro hfalse
    by_contra hcon
    push_neg at hcon
    have htrue : mcAux P rs 0 (numYears P) (mcWealthPre P rs 0) = true :=
      h.mpr fun j _ hj2 hdec => hcon j (by omega) hdec
    rw [htrue] at hfalse
    exact Bool.noConfusion hfalse
  · rintro ⟨y, hy, hdec, hw⟩
    cases hb : mcAux P rs 0 (numYears P) (mcWealthPre P rs 0) with
    | false => rfl
    | true =>
      have := h.mp hb y (by omega) (by omega) hdec
      linarith

/-- The no-stop trial wealth depends only on the draws before the queried
year. -/
lemma mcWealthPre_congr (P : Inputs) (rs rs' : ℕ → ℚ) (n : ℕ)
    (h : ∀ y, y < n → rs y = rs' y) :
    ∀ y, y ≤ n → mcWealthPre P rs y = mcWealthPre P rs' y := by
  intro y
  induction y with
  | zero =>
    intro _
    rfl
  | succ y ih =>
    intro hy
    show mcStep P (rs y) y (mcWealthPre P rs y) = mcStep P (rs' y) y (mcWealthPre P rs' y)
    rw [h y (by omega), ih (by omega)]

/-- Elements of the Monte Carlo results list are 0 or 1. -/
lemma mcResults_mem (P : Inputs) (rss : ℕ → ℕ → ℚ) :
    ∀ x ∈ mcResults P rss, x = 0 ∨ x = 1 := by
  intro x hx
  rw [mcResults, List.mem_map] at hx
  obtain ⟨i, _, rfl⟩ := hx
  by_cases h : mcTrialOk P (rss i) <;> simp [h]

/-- Summing the 1/0 indicators counts the successes. -/
lemma sum_ite_count (p : ℕ → Bool) :
    ∀ l : List ℕ, (l.map fun i => if p i then (1:ℚ) else 0).sum = ((l.filter p).length : ℚ) := by
  intro l
  induction l with
  | nil => simp
  | cons a l ih =>
    by_cases hp : p a
    · simp [List.filter_cons, hp, ih]
      ring
    · simp [List.filter_cons, hp, ih]

/-- A list of 0/1 rationals sums to something between 0 and its length. -/
lemma sum_bounds_zero_one (l : List ℚ) (h : ∀ x ∈ l, x = 0 ∨ x = 1) :
    0 ≤ l.sum ∧ l.sum ≤ l.length := by
  induction l with
  | nil => simp
  | cons a l ih =>
    have ha := h a (by simp)
    have ih2 := ih fun x hx => h x (List.mem_cons_of_mem a hx)
    constructor
    · rcases ha with rfl | rfl <;> simp <;> linarith [ih2.1]
    · rcases ha with rfl | rfl <;> simp [List.length_cons] <;> linarith [ih2.2]

/-- C3: a trial fails exactly when its decumulation wealth first drops to ≤ 0
(the early-exit recursion `mcAux` evaluates no further years once it fails,
and failure depends only on the draws up to the failing year); the success
probability is the number of surviving trials over the trial count, and lies
in [0, 1] whenever there is at least one trial. -/
theorem C3_monte_carlo (P : Inputs) (rss : ℕ → ℕ → ℚ) (hruns : 1 ≤ P.runs) :
    mcSuccessProb P rss = (mcSuccessCount P rss : ℚ) / (P.runs : ℚ) ∧
    0 ≤ mcSuccessProb P rss ∧ mcSuccessProb P rss ≤ 1 ∧
    (∀ rs, mcTrialOk P rs = false ↔
      ∃ y, y < numYears P ∧ P.retireAge ≤ P.age + (y : ℤ) ∧
        mcWealthPre P rs (y + 1) ≤ 0) ∧
    (∀ (rs rs' : ℕ → ℚ) (y0 : ℕ), y0 < numYears P → P.retireAge ≤ P.age + (y0 : ℤ) →
      mcWealthPre P rs (y0 + 1) ≤ 0 → (∀ y, y ≤ y0 → rs y = rs' y) →
      mcTrialOk P rs' = false) := by
  have hmax : max P.runs 1 = P.runs := max_eq_left hruns
  have hsum : (mcResults P rss).sum = (mcSuccessCount P rss : ℚ) := by
    rw [mcResults, mcSuccessCount]
    exact sum_ite_count _ (List.range P.runs)
  have hb := sum_bounds_zero_one (mcResults P rss) (mcResults_mem P rss)
  have hlen : ((mcResults P rss).length : ℚ) = (P.runs : ℚ) := by simp [mcResults]
  have hpos : (0:ℚ) < P.runs := by exact_mod_cast hruns
  refine ⟨?_, ?_, ?_, fun rs => mcTrialOk_false_iff P rs, ?_⟩
  · rw [mcSuccessProb, hmax, hsum]
  · rw [mcSuccessProb]
    exact div_nonneg hb.1 (Nat.cast_nonneg _)
  · rw [mcSuccessProb, hmax, div_le_one hpos]
    calc (mcResults P rss).sum ≤ (mcResults P rss).length := hb.2
    _ = (P.runs : ℚ) := hlen
  · intro rs rs' y0 hy0 hdec hw hag
    rw [mcTrialOk_false_iff]
    refine ⟨y0, hy0, hdec, ?_⟩
    rw [← mcWealthPre_congr P rs rs' (y0 + 1) (fun y hy => hag y (by omega)) (y0 + 1) le_rfl]
    exact hw

/-- Witness instantiating `C3_monte_carlo` at `Pex` with the zero draw
streams. -/
theorem C3_witness :
    mcSuccessProb Pex (fun _ _ => 0)
      = (mcSuccessCount Pex (fun _ _ => 0) : ℚ) / (Pex.runs : ℚ) ∧
    0 ≤ mcSuccessProb Pex (fun _ _ => 0) ∧ mcSuccessProb Pex (fun _ _ => 0) ≤ 1 :=
  ⟨(C3_monte_carlo Pex (fun _ _ => 0) (by decide)).1,
   (C3_monte_carlo Pex (fun _ _ => 0) (by decide)).2.1,
   (C3_monte_carlo Pex (fun _ _ => 0) (by decide)).2.2.1⟩

end Plan
